import Mathlib

/-!
# droplets: the wiring of `main.go`

A shallow embedding of `main.go`: the configuration it reads through viper, the handler
chain it builds (router, basic auth, request logging, panic recovery), the graceful server
it configures, and the run of `main` itself as a function of the outside world
(environment variables, the outcome of `mongo.Connect`, `web.New` and `ListenAndServe`).

A handler is a function from a request to an outcome: the events it caused (layers
entered, logger calls, effects of the application code), what was written as the response
(or the fault it raised), and the time it took.
-/

namespace Droplets

/-! ## Strings (Go's `strings` package, on the characters of the string) -/

/-- ASCII lower-casing of one character, as `strings.ToLower` does on ASCII keys. -/
def lowerChar (c : Char) : Char :=
  if 'A' ≤ c ∧ c ≤ 'Z' then Char.ofNat (c.toNat + 32) else c

/-- ASCII upper-casing of one character, as `strings.ToUpper` does on ASCII keys. -/
def upperChar (c : Char) : Char :=
  if 'a' ≤ c ∧ c ≤ 'z' then Char.ofNat (c.toNat - 32) else c

/-- Go's `strings.ToLower`. -/
def ToLower (s : String) : String := String.mk (s.data.map lowerChar)

/-- Go's `strings.ToUpper`. -/
def ToUpper (s : String) : String := String.mk (s.data.map upperChar)

/-- Go's `strings.HasPrefix s p`. -/
def HasPrefix (s p : String) : Bool := p.data.isPrefixOf s.data

/-- Go's `strings.TrimPrefix s p`. -/
def TrimPrefix (s p : String) : String :=
  if HasPrefix s p then String.mk (s.data.drop p.data.length) else s

/-! ## Time and signals -/

/-- Go's `time.Second`, in nanoseconds (the unit of `time.Duration`). -/
def time.Second : Nat := 1000000000

/-- Process signals; `main.go` only names `os.Interrupt`. -/
inductive Signal where
  | interrupt
  | terminate
  | other (n : Nat)
  deriving DecidableEq, Repr

/-- Go's `os.Interrupt`. -/
def os.Interrupt : Signal := Signal.interrupt

/-! ## Logger (`pkg/logger`) -/

/-- Severities of the logger capability. -/
inductive Level where
  | debug
  | info
  | error
  | fatal
  deriving DecidableEq, Repr

/-- One argument of a formatted log call. -/
inductive Arg where
  | str (s : String)
  | num (n : Nat)
  deriving DecidableEq, Repr

/-- The logger `logger.New(os.Stderr, level, format)` returns: it is determined by the
level and format it was built with. -/
structure Logger where
  level : String
  format : String
  deriving DecidableEq, Repr

/-- One call of a logger method: which logger, at which severity, the format string and
its arguments. -/
structure LogCall where
  logger : Logger
  level : Level
  format : String
  args : List Arg
  deriving DecidableEq, Repr

/-- A logging function value such as `lg.Errorf`: format and arguments to the call made. -/
abbrev LogFunc := String → List Arg → LogCall

/-- Go's `logger.New(os.Stderr, level, format)`. -/
def logger.New (level format : String) : Logger := { level := level, format := format }

/-- The method value `lg.Debugf`. -/
def Logger.Debugf (lg : Logger) : LogFunc := fun f a => ⟨lg, Level.debug, f, a⟩

/-- The method value `lg.Infof`. -/
def Logger.Infof (lg : Logger) : LogFunc := fun f a => ⟨lg, Level.info, f, a⟩

/-- The method value `lg.Errorf`. -/
def Logger.Errorf (lg : Logger) : LogFunc := fun f a => ⟨lg, Level.error, f, a⟩

/-- The method value `lg.Fatalf`: the call it makes; that the process ends after it is part
of `main` below. -/
def Logger.Fatalf (lg : Logger) : LogFunc := fun f a => ⟨lg, Level.fatal, f, a⟩

/-! ## Requests, responses, handlers -/

/-- The `Authorization` header of a request, as `req.BasicAuth()` sees it. -/
inductive Credentials where
  | absent
  | malformed (raw : String)
  | basic (name secret : String)
  deriving DecidableEq, Repr

/-- Go's `req.BasicAuth()`: the name/secret pair when the header is present and
well-formed. -/
def Credentials.BasicAuth : Credentials → Option (String × String)
  | Credentials.basic name secret => some (name, secret)
  | _ => none

/-- Go's `context.Context` of a request: the values it carries. -/
structure Context where
  values : List (String × String)
  deriving DecidableEq, Repr

/-- The part of an `*http.Request` the chain looks at. -/
structure Request where
  method : String
  path : String
  credentials : Credentials
  ctx : Context
  deriving DecidableEq, Repr

/-- What a handler wrote to its `http.ResponseWriter`. -/
structure Response where
  status : Nat
  header : List (String × String)
  body : String
  deriving DecidableEq, Repr

/-- How serving a request ended: with a response, or with a fault (Go panic). -/
inductive Result where
  | response (r : Response)
  | fault (msg : String) (stack : String)
  deriving DecidableEq, Repr

/-- The handlers of the chain `main` builds. -/
inductive Layer where
  | recovery
  | logging
  | router
  | stripPrefix
  | basicAuth
  | rest
  | web
  deriving DecidableEq, Repr

/-- What can be observed while a request is served. -/
inductive Event where
  | enter (l : Layer)
  | log (c : LogCall)
  | app (effect : String)
  deriving DecidableEq, Repr

/-- The outcome of `ServeHTTP` on one request. -/
structure Outcome where
  events : List Event
  result : Result
  elapsed : Nat
  deriving DecidableEq, Repr

/-- Go's `http.Handler`. -/
abbrev Handler := Request → Outcome

/-- The layers entered while a request was served, in order. -/
def Outcome.entered (o : Outcome) : List Layer :=
  o.events.filterMap fun e =>
    match e with
    | Event.enter l => some l
    | _ => none

/-- The status code written, when a response was written. -/
def Result.status : Result → Option Nat
  | Result.response r => some r.status
  | Result.fault _ _ => none

/-- What application code (outside `main.go`) does with a request: its own effects, its
result, the time it took. It cannot produce the events of the chain. -/
structure AppOutcome where
  effects : List String
  result : Result
  elapsed : Nat
  deriving DecidableEq, Repr

/-- Application code as a function of the request. -/
abbrev App := Request → AppOutcome

/-- Modelled from the spec: the base application Handler of section 6 (`rest.New`,
`web.New` are not in `main.go`): request in, response or fault out. Entering it is
recorded, then its own effects follow. -/
def App.handler (l : Layer) (app : App) : Handler := fun req =>
  let o := app req
  { events := Event.enter l :: o.effects.map Event.app, result := o.result,
    elapsed := o.elapsed }

/-- Modelled from the spec: `rest.New(lg, ...)`, the REST application handler built from
the use cases. -/
def rest.New (_lg : Logger) (app : App) : Handler := App.handler Layer.rest app

/-- Go's `http.NotFound`. -/
def http.NotFound : Response :=
  { status := 404, header := [], body := "404 page not found\n" }

/-- Go's `http.StripPrefix(pfx, h)`: `h` itself for the empty prefix; otherwise a path
that has the prefix goes to `h` without it, any other path is answered with 404. -/
def http.StripPrefix (pfx : String) (h : Handler) : Handler :=
  if pfx = "" then h
  else fun req =>
    if HasPrefix req.path pfx then
      let o := h { req with path := TrimPrefix req.path pfx }
      { events := Event.enter Layer.stripPrefix :: o.events, result := o.result,
        elapsed := o.elapsed }
    else
      { events := [Event.enter Layer.stripPrefix], result := Result.response http.NotFound,
        elapsed := 0 }

/-! ## Paths (Go's `path` package) -/

/-- The elements of a path: the pieces between its slashes. -/
def path.elements : List Char → List (List Char)
  | [] => [[]]
  | c :: cs =>
    if c = '/' then [] :: path.elements cs
    else
      match path.elements cs with
      | e :: es => (c :: e) :: es
      | [] => [[c]]

/-- One step of `path.Clean`: the elements kept so far (latest first) and the next
element. Empty and "." elements are dropped; ".." removes the element before it, is
dropped at the root, and is kept at the start of a path that is not rooted. -/
def path.step (rooted : Bool) (kept : List (List Char)) (e : List Char) :
    List (List Char) :=
  if e = [] then kept
  else if e = ['.'] then kept
  else if e = ['.', '.'] then
    match kept with
    | top :: rest => if top = ['.', '.'] then e :: kept else rest
    | [] => if rooted then [] else [e]
  else e :: kept

/-- Go's `path.Clean`: the shortest path equivalent to `p` by lexical processing. -/
def path.Clean (p : String) : String :=
  if p = "" then "."
  else
    let rooted := p.data.head? == some '/'
    let kept := (path.elements p.data).foldl (path.step rooted) []
    let body := List.intercalate ['/'] kept.reverse
    if rooted then String.mk ('/' :: body)
    else if body = [] then "." else String.mk body

/-! ## Router (`gorilla/mux`), as far as `main` uses it -/

/-- The `cleanPath` of mux: the canonical form of a URL path. It is rooted, cleaned with
`path.Clean`, and keeps a trailing slash. -/
def mux.cleanPath (p : String) : String :=
  if p = "" then "/"
  else
    let p := if p.data.head? = some '/' then p else String.mk ('/' :: p.data)
    let np := path.Clean p
    if p.data.getLast? = some '/' ∧ np ≠ "/" then String.mk (np.data ++ ['/']) else np

/-- One route registered with `router.PathPrefix(tpl).Handler(h)`. -/
structure mux.Route where
  tpl : String
  handler : Handler

/-- A `*mux.Router`: whether path cleaning is skipped, and its routes in registration
order. -/
structure mux.Router where
  skipClean : Bool
  routes : List mux.Route

/-- Go's `mux.NewRouter()`: no routes, path cleaning on. -/
def mux.NewRouter : mux.Router := { skipClean := false, routes := [] }

/-- Go's `router.PathPrefix(tpl).Handler(h)`: registers the route after the earlier ones. -/
def mux.Router.PathPrefix (r : mux.Router) (tpl : String) (h : Handler) : mux.Router :=
  { r with routes := r.routes ++ [{ tpl := tpl, handler := h }] }

/-- The route a path is dispatched to: the first registered one whose template is a
prefix of the path. -/
def mux.Router.Match (r : mux.Router) (path : String) : Option mux.Route :=
  r.routes.find? fun rt => HasPrefix path rt.tpl

/-- The answer of the router to a path that is not in canonical form: 301 with the
canonical path as location. -/
def mux.movedPermanently (location : String) : Response :=
  { status := 301, header := [("Location", location)], body := "" }

/-- The router as a handler (`Router.ServeHTTP` of mux). Unless cleaning is skipped, a
path that differs from its canonical form is answered with 301 and no route is tried.
Otherwise the request goes to the matching route, or is answered with 404 when no route
matches. -/
def mux.Router.ServeHTTP (r : mux.Router) : Handler := fun req =>
  if r.skipClean = false ∧ mux.cleanPath req.path ≠ req.path then
    { events := [Event.enter Layer.router],
      result := Result.response (mux.movedPermanently (mux.cleanPath req.path)),
      elapsed := 0 }
  else
    match r.Match req.path with
    | some rt =>
      let o := rt.handler req
      { events := Event.enter Layer.router :: o.events, result := o.result,
        elapsed := o.elapsed }
    | none =>
      { events := [Event.enter Layer.router], result := Result.response http.NotFound,
        elapsed := 0 }

/-! ## Middlewares (`pkg/middlewares`) -/

/-- Go's `middlewares.UserVerifier`: `verify(context, name, secret) -> bool`. -/
abbrev middlewares.UserVerifier := Context → String → String → Bool

/-- Go's `middlewares.UserVerifierFunc(f)`: the function itself, as a verifier. -/
def middlewares.UserVerifierFunc (f : Context → String → String → Bool) :
    middlewares.UserVerifier := f

/-- The generic answer of the recovery middleware to a fault. -/
def middlewares.internalServerError : Response :=
  { status := 500, header := [], body := "Internal Server Error" }

/-- Modelled from the spec: the recovery middleware of section 4.2 (`WithRecovery` is not
in `main.go`). A fault raised by the inner handler is intercepted, logged once at error
severity with its stack trace, and converted into a 500 response with a generic body; a
response of the inner handler is left as it is. -/
def middlewares.WithRecovery (lg : Logger) (next : Handler) : Handler := fun req =>
  let o := next req
  match o.result with
  | Result.fault msg stack =>
    { events := Event.enter Layer.recovery :: o.events ++
        [Event.log (lg.Errorf "recovered from panic" [Arg.str msg, Arg.str stack])],
      result := Result.response middlewares.internalServerError,
      elapsed := o.elapsed }
  | Result.response r =>
    { events := Event.enter Layer.recovery :: o.events, result := Result.response r,
      elapsed := o.elapsed }

/-- Modelled from the spec: the request logging middleware of section 4.3
(`WithRequestLogging` is not in `main.go`). After the inner handler completes, one entry
with method, path, status code and elapsed duration is emitted; the response is not
altered, and a fault of the inner handler is passed on untouched. -/
def middlewares.WithRequestLogging (lg : Logger) (next : Handler) : Handler := fun req =>
  let o := next req
  match o.result with
  | Result.response r =>
    { events := Event.enter Layer.logging :: o.events ++
        [Event.log (lg.Infof "request completed"
          [Arg.str req.method, Arg.str req.path, Arg.num r.status, Arg.num o.elapsed])],
      result := Result.response r,
      elapsed := o.elapsed }
  | Result.fault msg stack =>
    { events := Event.enter Layer.logging :: o.events, result := Result.fault msg stack,
      elapsed := o.elapsed }

/-- The 401 answer to absent or malformed credentials, with the challenge header. -/
def middlewares.challenge : Response :=
  { status := 401, header := [("WWW-Authenticate", "Basic")], body := "Unauthorized" }

/-- The 401 answer to credentials the verifier rejects. -/
def middlewares.unauthorized : Response :=
  { status := 401, header := [], body := "Unauthorized" }

/-- Modelled from the spec: the authentication middleware of section 4.4 (`WithBasicAuth`
is not in `main.go`). The name/secret pair is extracted from the request; absent or
malformed credentials are answered with 401 and a challenge header; a pair the verifier
rejects is answered with 401; in both cases the inner handler is not invoked and nothing
else happens. A pair the verifier accepts lets the request through to the inner handler
unchanged. -/
def middlewares.WithBasicAuth (verifier : middlewares.UserVerifier) (_lg : Logger)
    (next : Handler) : Handler := fun req =>
  match req.credentials.BasicAuth with
  | none =>
    { events := [Event.enter Layer.basicAuth],
      result := Result.response middlewares.challenge, elapsed := 0 }
  | some (name, secret) =>
    if verifier req.ctx name secret then
      let o := next req
      { events := Event.enter Layer.basicAuth :: o.events, result := o.result,
        elapsed := o.elapsed }
    else
      { events := [Event.enter Layer.basicAuth],
        result := Result.response middlewares.unauthorized, elapsed := 0 }

/-! ## Configuration (`spf13/viper`), as far as `main` uses it -/

/-- A configuration value: a string (environment, string defaults) or a duration. -/
inductive Value where
  | str (s : String)
  | dur (d : Nat)
  deriving DecidableEq, Repr

/-- The conversions viper applies to values (`spf13/cast`): parsing a string as a
duration (0 when it does not parse) and printing a duration. -/
structure Cast where
  ToDuration : String → Nat
  DurationString : Nat → String

/-- The environment of the process: variables and their values. -/
abbrev Environ := List (String × String)

/-- Go's `os.LookupEnv`. -/
def os.LookupEnv (env : Environ) (key : String) : Option String := env.lookup key

/-- The state of the global viper instance: whether `AutomaticEnv` was called, and the
defaults set, under their lower-cased keys, latest first. -/
structure Viper where
  automaticEnvApplied : Bool
  defaults : List (String × Value)
  deriving DecidableEq, Repr

/-- The viper instance before `main` touches it. -/
def viper.New : Viper := { automaticEnvApplied := false, defaults := [] }

/-- Go's `viper.AutomaticEnv()`. -/
def Viper.AutomaticEnv (v : Viper) : Viper := { v with automaticEnvApplied := true }

/-- Go's `viper.SetDefault(key, value)`: keys are case-insensitive, stored lower-cased. -/
def Viper.SetDefault (v : Viper) (key : String) (value : Value) : Viper :=
  { v with defaults := (ToLower key, value) :: v.defaults }

/-- The environment lookup of viper: the variable named by the upper-cased key; an empty
value counts as unset. -/
def Viper.getEnv (env : Environ) (lcaseKey : String) : Option String :=
  match os.LookupEnv env (ToUpper lcaseKey) with
  | some s => if s = "" then none else some s
  | none => none

/-- The lookup of viper for a lower-cased key: the environment first (when `AutomaticEnv`
was called), then the defaults. -/
def Viper.find (v : Viper) (env : Environ) (lcaseKey : String) : Option Value :=
  match (if v.automaticEnvApplied then Viper.getEnv env lcaseKey else none) with
  | some s => some (Value.str s)
  | none => v.defaults.lookup lcaseKey

/-- Go's `viper.Get(key)`: the key is lower-cased before the lookup. -/
def Viper.Get (v : Viper) (env : Environ) (key : String) : Option Value :=
  v.find env (ToLower key)

/-- Go's `viper.GetString(key)`. -/
def Viper.GetString (v : Viper) (c : Cast) (env : Environ) (key : String) : String :=
  match v.Get env key with
  | some (Value.str s) => s
  | some (Value.dur d) => c.DurationString d
  | none => ""

/-- Go's `viper.GetDuration(key)`. -/
def Viper.GetDuration (v : Viper) (c : Cast) (env : Environ) (key : String) : Nat :=
  match v.Get env key with
  | some (Value.str s) => c.ToDuration s
  | some (Value.dur d) => d
  | none => 0

/-! ## Graceful server (`pkg/graceful`) -/

/-- The fields of `graceful.Server` that `main.go` gives or sets. -/
structure graceful.Server where
  handler : Handler
  timeout : Nat
  signals : List Signal
  Addr : String
  Log : Option LogFunc

/-- Modelled from the spec: `graceful.NewServer(handler, timeout, signals...)` (not in
`main.go`): the server keeps the handler, the shutdown deadline and the signals it was
constructed with; address and logging hook are not set yet. -/
def graceful.NewServer (handler : Handler) (timeout : Nat) (signals : List Signal) :
    graceful.Server :=
  { handler := handler, timeout := timeout, signals := signals, Addr := "", Log := none }

/-! ## `main.go` -/

/-- Go's `adminVerifier` (main.go, lines 88-90). -/
def adminVerifier (_ctx : Context) (_name secret : String) : Bool :=
  secret == "secret@123"

/-- Go's `withMiddlewares` (main.go, lines 82-86). -/
def withMiddlewares (handler : Handler) (logger : Logger) : Handler :=
  let handler := middlewares.WithRequestLogging logger handler
  let handler := middlewares.WithRecovery logger handler
  handler

/-- Go's `server` (main.go, lines 71-80). The viper instance is global in Go; here it is
passed in and returned. -/
def server (c : Cast) (env : Environ) (v : Viper) (lg : Logger) (handler : Handler) :
    graceful.Server × Viper :=
  let v := v.SetDefault "GRACEFUL_TIMEOUT" (Value.dur (20 * time.Second))
  let timeout := v.GetDuration c env "GRACEFUL_TIMEOUT"
  let handler := withMiddlewares handler lg
  let srv := graceful.NewServer handler timeout [os.Interrupt]
  let srv := { srv with Log := some lg.Errorf }
  (srv, v)

/-- Go's `web.Config`. -/
structure web.Config where
  TemplateDir : String
  StaticDir : String
  deriving DecidableEq, Repr

/-- Everything outside `main.go` that a run of `main` depends on. -/
structure World where
  -- The environment variables.
  env : Environ
  -- The value conversions of viper.
  cast : Cast
  -- The error `mongo.Connect(uri, debug)` returns, if any.
  mongoConnect : String → Bool → Option String
  -- The application code behind `rest.New`.
  restApp : App
  -- The result of `web.New(lg, cfg)`: the web application code, or an error.
  webNew : Logger → web.Config → Except String App
  -- The error `srv.ListenAndServe()` returns, if any.
  listenAndServe : graceful.Server → Option String

/-- What a run of `main` does, as seen from outside. -/
inductive ProcEvent where
  | log (c : LogCall)
  | mongoConnect (uri : String) (debug : Bool)
  | webNew (cfg : web.Config)
  | listenAndServe (addr : String) (err : Option String)
  | closeSession
  deriving DecidableEq, Repr

/-- How the process ended: `main` returned, or the process exited with a status. -/
inductive Exit where
  | returned
  | exited (code : Nat)
  deriving DecidableEq, Repr

/-- A run of `main`: its events in order, how it ended, and the server it served with
(if it got that far). -/
structure Run where
  trace : List ProcEvent
  exit : Exit
  server : Option graceful.Server

/-- The viper instance after lines 22-28 of `main`. -/
def configure : Viper :=
  let v := viper.New.AutomaticEnv
  let v := v.SetDefault "MONGO_URI" (Value.str "mongodb://localhost/droplets")
  let v := v.SetDefault "LOG_LEVEL" (Value.str "debug")
  let v := v.SetDefault "LOG_FORMAT" (Value.str "text")
  let v := v.SetDefault "ADDR" (Value.str ":8080")
  let v := v.SetDefault "STATIC_DIR" (Value.str "./web/static/")
  let v := v.SetDefault "TEMPLATE_DIR" (Value.str "./web/templates/")
  v

/-- The logger of line 30 of `main`. -/
def mainLogger (c : Cast) (env : Environ) : Logger :=
  logger.New (configure.GetString c env "LOG_LEVEL") (configure.GetString c env "LOG_FORMAT")

/-- The `restHandler` of lines 48-49 of `main`. -/
def restHandler (lg : Logger) (restApp : App) : Handler :=
  let restHandler := rest.New lg restApp
  middlewares.WithBasicAuth (middlewares.UserVerifierFunc adminVerifier) lg restHandler

/-- The `router` of lines 59-61 of `main`. -/
def router (restHandler webHandler : Handler) : mux.Router :=
  let router := mux.NewRouter
  let router := router.PathPrefix "/api" (http.StripPrefix "/api" restHandler)
  let router := router.PathPrefix "/" webHandler
  router

/-- Go's `main` (main.go, lines 21-69). `lg.Fatalf` logs at fatal severity and ends the
process with status 1, so nothing after it runs, deferred calls included. -/
def main (w : World) : Run :=
  let v := configure
  let lg := mainLogger w.cast w.env
  let uri := v.GetString w.cast w.env "MONGO_URI"
  match w.mongoConnect uri true with
  | some err =>
    { trace := [ProcEvent.mongoConnect uri true,
        ProcEvent.log (lg.Fatalf "failed to connect to mongodb: %v" [Arg.str err])],
      exit := Exit.exited 1, server := none }
  | none =>
    let t := [ProcEvent.mongoConnect uri true,
      ProcEvent.log (lg.Debugf "setting up rest api service" [])]
    let restHandler := restHandler lg w.restApp
    let cfg : web.Config :=
      { TemplateDir := v.GetString w.cast w.env "TEMPLATE_DIR",
        StaticDir := v.GetString w.cast w.env "STATIC_DIR" }
    match w.webNew lg cfg with
    | Except.error err =>
      { trace := t ++ [ProcEvent.webNew cfg,
          ProcEvent.log (lg.Fatalf "failed to setup web handler: %v" [Arg.str err])],
        exit := Exit.exited 1, server := none }
    | Except.ok webApp =>
      let webHandler := App.handler Layer.web webApp
      let router := router restHandler webHandler
      let (srv, v) := server w.cast w.env v lg router.ServeHTTP
      let srv := { srv with Addr := v.GetString w.cast w.env "addr" }
      let t := t ++ [ProcEvent.webNew cfg,
        ProcEvent.log (lg.Infof "listening for requests on :8080..." [])]
      match w.listenAndServe srv with
      | some err =>
        { trace := t ++ [ProcEvent.listenAndServe srv.Addr (some err),
            ProcEvent.log (lg.Fatalf "http server exited: %s" [Arg.str err])],
          exit := Exit.exited 1, server := some srv }
      | none =>
        { trace := t ++ [ProcEvent.listenAndServe srv.Addr none, ProcEvent.closeSession],
          exit := Exit.returned, server := some srv }

/-- The outcome of a request served by the server `main` built, when `main` got as far as
serving. -/
def serve (w : World) (req : Request) : Option Outcome :=
  (main w).server.map fun srv => srv.handler req

/-! ## Observations on a run, and concrete inputs -/

/-- The fatal-level log calls of a run: format and arguments, in order. -/
def Run.fatals (r : Run) : List (String × List Arg) :=
  r.trace.filterMap fun e =>
    match e with
    | ProcEvent.log c => if c.level = Level.fatal then some (c.format, c.args) else none
    | _ => none

/-- The info-level log calls of a run: format and arguments, in order. -/
def Run.infos (r : Run) : List (String × List Arg) :=
  r.trace.filterMap fun e =>
    match e with
    | ProcEvent.log c => if c.level = Level.info then some (c.format, c.args) else none
    | _ => none

/-- Value conversions for the concrete runs: a string of digits is a number of
nanoseconds, anything else does not parse. -/
def plainCast : Cast :=
  { ToDuration := fun s => s.toNat?.getD 0, DurationString := fun d => toString d ++ "ns" }

/-- REST application code for the concrete runs: answers 200. -/
def listUsers : App := fun _ =>
  { effects := ["users: list"], result := Result.response ⟨200, [], "[]"⟩, elapsed := 3 }

/-- Web application code for the concrete runs: answers 200. -/
def renderPage : App := fun _ =>
  { effects := ["web: render"], result := Result.response ⟨200, [], "<html/>"⟩,
    elapsed := 2 }

/-- A world given by its environment and by the errors (if any) of `mongo.Connect`,
`web.New` and `ListenAndServe`. -/
def worldOf (env : Environ) (mongoErr webErr serveErr : Option String) : World :=
  { env := env
    cast := plainCast
    mongoConnect := fun _ _ => mongoErr
    restApp := listUsers
    webNew := fun _ _ =>
      match webErr with
      | some e => Except.error e
      | none => Except.ok renderPage
    listenAndServe := fun _ => serveErr }

/-- A request for the home page, without credentials. -/
def homeRequest : Request :=
  { method := "GET", path := "/", credentials := Credentials.absent, ctx := ⟨[]⟩ }

/-- A request for the users API with the admin secret. -/
def adminRequest : Request :=
  { method := "GET", path := "/api/users",
    credentials := Credentials.basic "admin" "secret@123", ctx := ⟨[]⟩ }

/-- A request for the users API with the admin secret, with a doubled slash in its
path. -/
def doubledSlashRequest : Request :=
  { method := "GET", path := "/api//users",
    credentials := Credentials.basic "admin" "secret@123", ctx := ⟨[]⟩ }

/-- A request for the users API with a wrong secret. -/
def guestRequest : Request :=
  { method := "GET", path := "/api/users",
    credentials := Credentials.basic "admin" "letmein", ctx := ⟨[]⟩ }

/-! ## Configuration lemmas -/

/-- The address `main` reads under the key "addr" after the defaults of `main` and
`server`: the environment variable ADDR when it is set and not empty, else ":8080". -/
theorem addr_read (c : Cast) (env : Environ) :
    (configure.SetDefault "GRACEFUL_TIMEOUT" (Value.dur (20 * time.Second))).GetString c env
        "addr" =
      match os.LookupEnv env "ADDR" with
      | some s => if s = "" then ":8080" else s
      | none => ":8080" := by
  have h1 : ToLower "addr" = "addr" := by decide
  have h2 : ToUpper "addr" = "ADDR" := by decide
  have h3 : ToLower "ADDR" = "addr" := by decide
  have h4 : ToLower "GRACEFUL_TIMEOUT" = "graceful_timeout" := by decide
  have h5 : ToLower "TEMPLATE_DIR" = "template_dir" := by decide
  have h6 : ToLower "STATIC_DIR" = "static_dir" := by decide
  simp only [Viper.GetString, Viper.Get, Viper.find, configure, Viper.SetDefault,
    Viper.AutomaticEnv, viper.New, Viper.getEnv, h1, h2, h3, h4, h5, h6]
  cases hE : os.LookupEnv env "ADDR" with
  | none => simp [List.lookup]
  | some s =>
    by_cases hs : s = ""
    · simp [hs, List.lookup]
    · simp [hs, List.lookup]

/-! ## Lemmas on events -/

theorem entered_cons_enter (l : Layer) (es : List Event) (r : Result) (t : Nat) :
    Outcome.entered { events := Event.enter l :: es, result := r, elapsed := t } =
      l :: Outcome.entered { events := es, result := r, elapsed := t } := by
  simp [Outcome.entered]

theorem count_enter_app (l : Layer) (effects : List String) :
    (effects.map Event.app).count (Event.enter l) = 0 := by
  induction effects with
  | nil => rfl
  | cons e es ih => simp [List.count_cons, ih]

theorem filterMap_enter_app (effects : List String) :
    (effects.map Event.app).filterMap (fun e =>
      match e with
      | Event.enter l => some l
      | _ => none) = [] := by
  induction effects with
  | nil => rfl
  | cons e es ih => simp [ih]

theorem entered_app_handler (l : Layer) (app : App) (req : Request) :
    (App.handler l app req).entered = [l] := by
  simp [App.handler, Outcome.entered, filterMap_enter_app]

/-- C5: adminVerifier accepts exactly the secret "secret@123", and its answer does not
depend on the context or the name. -/
theorem adminVerifier_spec :
    (∀ (ctx : Context) (name secret : String),
      adminVerifier ctx name secret = true ↔ secret = "secret@123") ∧
    (∀ (ctx₁ ctx₂ : Context) (name₁ name₂ secret : String),
      adminVerifier ctx₁ name₁ secret = adminVerifier ctx₂ name₂ secret) ∧
    (∀ (ctx : Context) (name : String), adminVerifier ctx name "SECRET@123" = false) := by
  refine ⟨?_, ?_, ?_⟩
  · intro ctx name secret
    simp [adminVerifier]
  · intro ctx₁ ctx₂ name₁ name₂ secret
    rfl
  · intro ctx name
    simp [adminVerifier]

/-- What the chain of `withMiddlewares` does with a request, by the result of the inner
handler. -/
theorem withMiddlewares_serve (h : Handler) (lg : Logger) (req : Request) :
    withMiddlewares h lg req =
      (match (h req).result with
      | Result.response r =>
        { events := Event.enter Layer.recovery :: Event.enter Layer.logging ::
            ((h req).events ++ [Event.log (lg.Infof "request completed"
              [Arg.str req.method, Arg.str req.path, Arg.num r.status,
                Arg.num (h req).elapsed])]),
          result := Result.response r, elapsed := (h req).elapsed }
      | Result.fault msg stack =>
        { events := Event.enter Layer.recovery :: Event.enter Layer.logging ::
            ((h req).events ++
              [Event.log (lg.Errorf "recovered from panic" [Arg.str msg, Arg.str stack])]),
          result := Result.response middlewares.internalServerError,
          elapsed := (h req).elapsed }) := by
  cases hr : (h req).result with
  | response r =>
    simp [withMiddlewares, middlewares.WithRecovery, middlewares.WithRequestLogging, hr]
  | fault msg stack =>
    simp [withMiddlewares, middlewares.WithRecovery, middlewares.WithRequestLogging, hr]

/-- The layers entered by the chain of `withMiddlewares`: recovery, logging, then those of
the inner handler. -/
theorem withMiddlewares_entered (h : Handler) (lg : Logger) (req : Request) :
    (withMiddlewares h lg req).entered =
      Layer.recovery :: Layer.logging :: (h req).entered := by
  rw [withMiddlewares_serve]
  cases hr : (h req).result with
  | response r => simp [Outcome.entered, List.filterMap_append]
  | fault msg stack => simp [Outcome.entered, List.filterMap_append]

/-- C6: withMiddlewares h lg is WithRecovery lg (WithRequestLogging lg h); on every request
recovery is entered first, logging second, then h, once each. -/
theorem withMiddlewares_chain (h : Handler) (lg : Logger) :
    withMiddlewares h lg = middlewares.WithRecovery lg (middlewares.WithRequestLogging lg h) ∧
    ∀ req : Request,
      withMiddlewares h lg req =
        (match (h req).result with
        | Result.response r =>
          { events := Event.enter Layer.recovery :: Event.enter Layer.logging ::
              ((h req).events ++ [Event.log (lg.Infof "request completed"
                [Arg.str req.method, Arg.str req.path, Arg.num r.status,
                  Arg.num (h req).elapsed])]),
            result := Result.response r, elapsed := (h req).elapsed }
        | Result.fault msg stack =>
          { events := Event.enter Layer.recovery :: Event.enter Layer.logging ::
              ((h req).events ++
                [Event.log (lg.Errorf "recovered from panic" [Arg.str msg, Arg.str stack])]),
            result := Result.response middlewares.internalServerError,
            elapsed := (h req).elapsed }) ∧
      (withMiddlewares h lg req).entered =
        Layer.recovery :: Layer.logging :: (h req).entered :=
  ⟨rfl, fun req => ⟨withMiddlewares_serve h lg req, withMiddlewares_entered h lg req⟩⟩

/-- C2: behind WithBasicAuth with adminVerifier, a request with a well-formed pair whose
secret is "secret@123" reaches the REST handler exactly once and gets its response
unmodified; any other request gets one 401 and the REST handler is not invoked. -/
theorem restHandler_auth (lg : Logger) (app : App) (req : Request) :
    (∀ name : String, req.credentials = Credentials.basic name "secret@123" →
      (restHandler lg app req).events.count (Event.enter Layer.rest) = 1 ∧
      (restHandler lg app req).result = (app req).result ∧
      (restHandler lg app req).events =
        Event.enter Layer.basicAuth :: (rest.New lg app req).events) ∧
    ((∀ name : String, req.credentials ≠ Credentials.basic name "secret@123") →
      (restHandler lg app req).events.count (Event.enter Layer.rest) = 0 ∧
      (restHandler lg app req).result.status = some 401 ∧
      (restHandler lg app req).events = [Event.enter Layer.basicAuth]) := by
  constructor
  · intro name hc
    simp [restHandler, middlewares.WithBasicAuth, middlewares.UserVerifierFunc, hc,
      Credentials.BasicAuth, adminVerifier, rest.New, App.handler, List.count_cons,
      count_enter_app]
  · intro hc
    cases hcred : req.credentials with
    | absent =>
      simp [restHandler, middlewares.WithBasicAuth, hcred, Credentials.BasicAuth,
        Result.status, middlewares.challenge, List.count_cons]
    | malformed raw =>
      simp [restHandler, middlewares.WithBasicAuth, hcred, Credentials.BasicAuth,
        Result.status, middlewares.challenge, List.count_cons]
    | basic name secret =>
      have hs : secret ≠ "secret@123" := by
        intro hs
        exact hc name (by rw [hcred, hs])
      simp [restHandler, middlewares.WithBasicAuth, middlewares.UserVerifierFunc, hcred,
        Credentials.BasicAuth, adminVerifier, hs, Result.status, middlewares.unauthorized,
        List.count_cons]

/-- C4: server(lg, h) is the graceful server constructed from withMiddlewares(h, lg), the
configured GRACEFUL_TIMEOUT (20 seconds when it is not configured) and os.Interrupt, with
lg.Errorf as its Log hook and nothing else changed. -/
theorem server_spec (c : Cast) (env : Environ) (v : Viper) (lg : Logger) (h : Handler) :
    (server c env v lg h).1 =
      { graceful.NewServer (withMiddlewares h lg)
          (if v.automaticEnvApplied then
            (match os.LookupEnv env "GRACEFUL_TIMEOUT" with
            | some s => if s = "" then 20 * time.Second else c.ToDuration s
            | none => 20 * time.Second)
          else 20 * time.Second)
          [os.Interrupt] with Log := some lg.Errorf } := by
  have h1 : ToLower "GRACEFUL_TIMEOUT" = "graceful_timeout" := by decide
  have h2 : ToLower "graceful_timeout" = "graceful_timeout" := by decide
  have h3 : ToUpper "graceful_timeout" = "GRACEFUL_TIMEOUT" := by decide
  have hd : (v.SetDefault "GRACEFUL_TIMEOUT" (Value.dur (20 * time.Second))).GetDuration c env
      "GRACEFUL_TIMEOUT" =
      (if v.automaticEnvApplied then
        (match os.LookupEnv env "GRACEFUL_TIMEOUT" with
        | some s => if s = "" then 20 * time.Second else c.ToDuration s
        | none => 20 * time.Second)
      else 20 * time.Second) := by
    simp only [Viper.GetDuration, Viper.Get, Viper.find, Viper.SetDefault, Viper.getEnv, h1,
      h3]
    cases ha : v.automaticEnvApplied with
    | false => simp [List.lookup]
    | true =>
      cases hE : os.LookupEnv env "GRACEFUL_TIMEOUT" with
      | none => simp [List.lookup]
      | some s =>
        by_cases hs : s = ""
        · simp [hs, List.lookup]
        · simp [hs, List.lookup]
  simp only [server, hd]


/-! ## The run of `main` -/

/-- The server `main` serves with, given the web application code `web.New` returned. -/
theorem main_server (w : World) (srv : graceful.Server) (h : (main w).server = some srv) :
    ∃ webApp : App,
      w.mongoConnect (configure.GetString w.cast w.env "MONGO_URI") true = none ∧
      w.webNew (mainLogger w.cast w.env)
        { TemplateDir := configure.GetString w.cast w.env "TEMPLATE_DIR",
          StaticDir := configure.GetString w.cast w.env "STATIC_DIR" } = Except.ok webApp ∧
      srv = { (server w.cast w.env configure (mainLogger w.cast w.env)
                (router (restHandler (mainLogger w.cast w.env) w.restApp)
                  (App.handler Layer.web webApp)).ServeHTTP).1 with
              Addr := (server w.cast w.env configure (mainLogger w.cast w.env)
                (router (restHandler (mainLogger w.cast w.env) w.restApp)
                  (App.handler Layer.web webApp)).ServeHTTP).2.GetString w.cast w.env
                    "addr" } := by
  unfold main at h
  cases hm : w.mongoConnect (configure.GetString w.cast w.env "MONGO_URI") true with
  | some err => simp [hm] at h
  | none =>
    cases hw : w.webNew (mainLogger w.cast w.env)
        { TemplateDir := configure.GetString w.cast w.env "TEMPLATE_DIR",
          StaticDir := configure.GetString w.cast w.env "STATIC_DIR" } with
    | error err => simp [hm, hw] at h
    | ok webApp =>
      refine ⟨webApp, rfl, rfl, ?_⟩
      simp only [hm, hw] at h
      split at h
      · simp at h
        exact h.symm
      · simp at h
        exact h.symm


/-! ## The router of `main` -/

/-- A rooted path is cleaned to a rooted path. -/
theorem clean_rooted (p : String) (h : p.data.head? = some '/') :
    ∃ t : List Char, (path.Clean p).data = '/' :: t := by
  have hne : p ≠ "" := by
    intro hp
    rw [hp] at h
    simp at h
  simp [path.Clean, hne, h]

/-- The canonical form of a path is rooted. -/
theorem cleanPath_data (p : String) : ∃ t : List Char, (mux.cleanPath p).data = '/' :: t := by
  unfold mux.cleanPath
  by_cases hp : p = ""
  · exact ⟨[], by simp [hp]⟩
  · simp only [hp, if_false]
    have hroot : (if p.data.head? = some '/' then p else String.mk ('/' :: p.data)).data.head?
        = some '/' := by
      by_cases hh : p.data.head? = some '/'
      · simp [hh]
      · simp [hh]
    generalize (if p.data.head? = some '/' then p else String.mk ('/' :: p.data)) = q
      at hroot ⊢
    obtain ⟨t, ht⟩ := clean_rooted q hroot
    by_cases hl : q.data.getLast? = some '/' ∧ path.Clean q ≠ "/"
    · exact ⟨t ++ ['/'], by rw [if_pos hl]; simp [ht]⟩
    · exact ⟨t, by rw [if_neg hl]; exact ht⟩

/-- A path in canonical form begins with "/". -/
theorem canonical_rooted (p : String) (h : mux.cleanPath p = p) : HasPrefix p "/" = true := by
  obtain ⟨t, ht⟩ := cleanPath_data p
  rw [h] at ht
  simp [HasPrefix, ht]

/-- The router of `main` on a request: a redirect for a path not in canonical form,
otherwise by the prefix of the path. -/
theorem router_serve (rh wh : Handler) (req : Request) :
    (router rh wh).ServeHTTP req =
      if mux.cleanPath req.path ≠ req.path then
        { events := [Event.enter Layer.router],
          result := Result.response (mux.movedPermanently (mux.cleanPath req.path)),
          elapsed := 0 }
      else if HasPrefix req.path "/api" then
        { events := Event.enter Layer.router :: Event.enter Layer.stripPrefix ::
            (rh { req with path := TrimPrefix req.path "/api" }).events,
          result := (rh { req with path := TrimPrefix req.path "/api" }).result,
          elapsed := (rh { req with path := TrimPrefix req.path "/api" }).elapsed }
      else
        { events := Event.enter Layer.router :: (wh req).events, result := (wh req).result,
          elapsed := (wh req).elapsed } := by
  have hne : ("/api" : String) ≠ "" := by decide
  by_cases hc : mux.cleanPath req.path = req.path
  · have h2 := canonical_rooted req.path hc
    by_cases h1 : HasPrefix req.path "/api" = true
    · simp [router, mux.Router.ServeHTTP, mux.Router.Match, mux.Router.PathPrefix,
        mux.NewRouter, http.StripPrefix, h1, hne, hc]
    · simp [router, mux.Router.ServeHTTP, mux.Router.Match, mux.Router.PathPrefix,
        mux.NewRouter, http.StripPrefix, h1, h2, hc]
  · simp [router, mux.Router.ServeHTTP, mux.Router.PathPrefix, mux.NewRouter, hc]

/-- The layers the REST handler of `main` enters: authentication, then the REST
application code when the secret is the admin secret. -/
theorem restHandler_entered (lg : Logger) (app : App) (req : Request) :
    (restHandler lg app req).entered =
      if req.credentials.BasicAuth.map Prod.snd = some "secret@123" then
        [Layer.basicAuth, Layer.rest]
      else [Layer.basicAuth] := by
  cases hcred : req.credentials with
  | absent =>
    simp [restHandler, middlewares.WithBasicAuth, hcred, Credentials.BasicAuth,
      Outcome.entered]
  | malformed raw =>
    simp [restHandler, middlewares.WithBasicAuth, hcred, Credentials.BasicAuth,
      Outcome.entered]
  | basic name secret =>
    by_cases hs : secret = "secret@123"
    · simp [restHandler, middlewares.WithBasicAuth, middlewares.UserVerifierFunc, hcred,
        Credentials.BasicAuth, adminVerifier, hs, Outcome.entered, rest.New, App.handler,
        filterMap_enter_app]
    · simp [restHandler, middlewares.WithBasicAuth, middlewares.UserVerifierFunc, hcred,
        Credentials.BasicAuth, adminVerifier, hs, Outcome.entered]

/-- The layers entered behind the router of `main`. -/
theorem router_entered (lg : Logger) (restApp webApp : App) (req : Request) :
    ((router (restHandler lg restApp) (App.handler Layer.web webApp)).ServeHTTP req).entered =
      if mux.cleanPath req.path ≠ req.path then [Layer.router]
      else if HasPrefix req.path "/api" then
        Layer.router :: Layer.stripPrefix ::
          (if req.credentials.BasicAuth.map Prod.snd = some "secret@123" then
            [Layer.basicAuth, Layer.rest]
          else [Layer.basicAuth])
      else [Layer.router, Layer.web] := by
  rw [router_serve]
  by_cases hc : mux.cleanPath req.path = req.path
  · by_cases h1 : HasPrefix req.path "/api" = true
    · have := restHandler_entered lg restApp { req with path := TrimPrefix req.path "/api" }
      simp only [Outcome.entered] at this
      simp [hc, h1, Outcome.entered, this]
    · have := entered_app_handler Layer.web webApp req
      simp only [Outcome.entered] at this
      simp [hc, h1, Outcome.entered, this]
  · simp [hc, Outcome.entered]

/-- C8, as amended: for a request path in canonical form the router of main sends a path
with prefix "/api" to the basic-auth-wrapped REST handler with the prefix stripped and
every other path to the web handler; a path not in canonical form is answered by the
router with a 301 redirect to its canonical form and reaches neither handler; the REST
application code is only entered behind WithBasicAuth, the web handler is entered without
it. -/
theorem router_dispatch (lg : Logger) (restApp webApp : App) (req : Request) :
    (mux.cleanPath req.path = req.path → HasPrefix req.path "/api" = true →
      (router (restHandler lg restApp) (App.handler Layer.web webApp)).ServeHTTP req =
        { events := Event.enter Layer.router :: Event.enter Layer.stripPrefix ::
            (restHandler lg restApp { req with path := TrimPrefix req.path "/api" }).events,
          result :=
            (restHandler lg restApp { req with path := TrimPrefix req.path "/api" }).result,
          elapsed :=
            (restHandler lg restApp
              { req with path := TrimPrefix req.path "/api" }).elapsed }) ∧
    (mux.cleanPath req.path = req.path → HasPrefix req.path "/api" = false →
      (router (restHandler lg restApp) (App.handler Layer.web webApp)).ServeHTTP req =
        { events := Event.enter Layer.router :: (App.handler Layer.web webApp req).events,
          result := (App.handler Layer.web webApp req).result,
          elapsed := (App.handler Layer.web webApp req).elapsed }) ∧
    (mux.cleanPath req.path ≠ req.path →
      (router (restHandler lg restApp) (App.handler Layer.web webApp)).ServeHTTP req =
        { events := [Event.enter Layer.router],
          result := Result.response (mux.movedPermanently (mux.cleanPath req.path)),
          elapsed := 0 }) ∧
    (Layer.rest ∈
        ((router (restHandler lg restApp) (App.handler Layer.web webApp)).ServeHTTP
          req).entered →
      ((router (restHandler lg restApp) (App.handler Layer.web webApp)).ServeHTTP
          req).entered = [Layer.router, Layer.stripPrefix, Layer.basicAuth, Layer.rest]) ∧
    (Layer.web ∈
        ((router (restHandler lg restApp) (App.handler Layer.web webApp)).ServeHTTP
          req).entered →
      ((router (restHandler lg restApp) (App.handler Layer.web webApp)).ServeHTTP
          req).entered = [Layer.router, Layer.web]) := by
  refine ⟨?_, ?_, ?_, ?_, ?_⟩
  · intro hc h1
    rw [router_serve]
    simp [hc, h1]
  · intro hc h1
    rw [router_serve]
    simp [hc, h1]
  · intro hc
    rw [router_serve, if_pos hc]
  · rw [router_entered]
    split_ifs <;> simp
  · rw [router_entered]
    split_ifs <;> simp


/-- The handler, deadline, signals and hook of the server `main` serves with. -/
theorem main_server_fields (w : World) (srv : graceful.Server)
    (h : (main w).server = some srv) :
    ∃ (webApp : App) (d : Nat),
      srv = { graceful.NewServer
                (middlewares.WithRecovery (mainLogger w.cast w.env)
                  (middlewares.WithRequestLogging (mainLogger w.cast w.env)
                    (router (restHandler (mainLogger w.cast w.env) w.restApp)
                      (App.handler Layer.web webApp)).ServeHTTP))
                d [os.Interrupt] with
              Log := some (mainLogger w.cast w.env).Errorf
              Addr :=
                match os.LookupEnv w.env "ADDR" with
                | some s => if s = "" then ":8080" else s
                | none => ":8080" } := by
  obtain ⟨webApp, -, -, hsrv⟩ := main_server w srv h
  refine ⟨webApp, ?_, ?_⟩
  · exact (server w.cast w.env configure (mainLogger w.cast w.env)
      (router (restHandler (mainLogger w.cast w.env) w.restApp)
        (App.handler Layer.web webApp)).ServeHTTP).1.timeout
  · rw [hsrv]
    have ha := addr_read w.cast w.env
    simp only [server, withMiddlewares, graceful.NewServer] at ha ⊢
    rw [ha]

/-- C1, as amended: the handler given to graceful.NewServer is
WithRecovery(WithRequestLogging(router)) and the REST application handler sits behind
WithBasicAuth inside the router; on every request served, panic recovery is entered first
and request logging second; a request that reaches the REST application handler has
entered, in this order, recovery, logging, authentication, then the handler; a request
that reaches the web application handler has entered recovery and logging, and no
authentication layer. -/
theorem main_layers (w : World) :
    ((main w).server = none ∨
      ∃ (webApp : App) (d : Nat) (addr : String),
        (main w).server = some
          { graceful.NewServer
              (middlewares.WithRecovery (mainLogger w.cast w.env)
                (middlewares.WithRequestLogging (mainLogger w.cast w.env)
                  (router
                    (middlewares.WithBasicAuth (middlewares.UserVerifierFunc adminVerifier)
                      (mainLogger w.cast w.env) (rest.New (mainLogger w.cast w.env) w.restApp))
                    (App.handler Layer.web webApp)).ServeHTTP))
              d [os.Interrupt] with
            Log := some (mainLogger w.cast w.env).Errorf
            Addr := addr }) ∧
    ∀ (req : Request) (o : Outcome), serve w req = some o →
      (∃ inner : List Layer, o.entered = Layer.recovery :: Layer.logging :: inner) ∧
      (Layer.rest ∈ o.entered →
        o.entered = [Layer.recovery, Layer.logging, Layer.router, Layer.stripPrefix,
          Layer.basicAuth, Layer.rest]) ∧
      (Layer.web ∈ o.entered →
        o.entered = [Layer.recovery, Layer.logging, Layer.router, Layer.web]) := by
  constructor
  · cases hs : (main w).server with
    | none => exact Or.inl rfl
    | some srv =>
      obtain ⟨webApp, d, hsrv⟩ := main_server_fields w srv hs
      exact Or.inr ⟨webApp, d, _, by rw [hsrv]; rfl⟩
  · intro req o ho
    unfold serve at ho
    cases hs : (main w).server with
    | none => simp [hs] at ho
    | some srv =>
      obtain ⟨webApp, d, hsrv⟩ := main_server_fields w srv hs
      simp only [hs, Option.map_some', Option.some.injEq] at ho
      subst ho
      rw [hsrv]
      have hr := router_entered (mainLogger w.cast w.env) w.restApp webApp req
      simp only [graceful.NewServer]
      have hc := withMiddlewares_entered
        (router (restHandler (mainLogger w.cast w.env) w.restApp)
          (App.handler Layer.web webApp)).ServeHTTP (mainLogger w.cast w.env) req
      simp only [withMiddlewares] at hc
      rw [hc, hr]
      refine ⟨⟨_, rfl⟩, ?_, ?_⟩
      · split_ifs <;> simp
      · split_ifs <;> simp

/-- C1, witness of the amended claim: the admin request on a run that serves reaches the
REST application handler. -/
theorem main_layers_witness :
    serve (worldOf [] none none none) adminRequest =
      some
        { events := [Event.enter Layer.recovery, Event.enter Layer.logging,
            Event.enter Layer.router, Event.enter Layer.stripPrefix,
            Event.enter Layer.basicAuth, Event.enter Layer.rest, Event.app "users: list",
            Event.log ((logger.New "debug" "text").Infof "request completed"
              [Arg.str "GET", Arg.str "/api/users", Arg.num 200, Arg.num 3])],
          result := Result.response ⟨200, [], "[]"⟩, elapsed := 3 } ∧
    Outcome.entered
        { events := [Event.enter Layer.recovery, Event.enter Layer.logging,
            Event.enter Layer.router, Event.enter Layer.stripPrefix,
            Event.enter Layer.basicAuth, Event.enter Layer.rest, Event.app "users: list",
            Event.log ((logger.New "debug" "text").Infof "request completed"
              [Arg.str "GET", Arg.str "/api/users", Arg.num 200, Arg.num 3])],
          result := Result.response ⟨200, [], "[]"⟩, elapsed := 3 } =
      [Layer.recovery, Layer.logging, Layer.router, Layer.stripPrefix, Layer.basicAuth,
        Layer.rest] :=
  ⟨by decide,
    ((main_layers (worldOf [] none none none)).2 adminRequest _ (by decide)).2.1 (by decide)⟩

/-- C1, counterexample to the claim as stated: a request for "/" served by the server main
builds reaches the web application handler and no authentication layer is entered. -/
theorem main_layers_web_unauthenticated :
    (serve (worldOf [] none none none) homeRequest).map Outcome.entered =
      some [Layer.recovery, Layer.logging, Layer.router, Layer.web] := by
  decide

/-- C7, as amended: viper lower-cases its keys, so "ADDR" and "addr" are one key; the
address main assigns to srv.Addr is the value of the environment variable ADDR when it is
set and not empty, and the default ":8080" otherwise. -/
theorem main_addr (w : World) (a : String)
    (h : ((main w).server.map fun srv => srv.Addr) = some a) :
    ToLower "ADDR" = ToLower "addr" ∧
    a = (match os.LookupEnv w.env "ADDR" with
      | some s => if s = "" then ":8080" else s
      | none => ":8080") := by
  refine ⟨by decide, ?_⟩
  cases hs : (main w).server with
  | none => simp [hs] at h
  | some srv =>
    obtain ⟨webApp, d, hsrv⟩ := main_server_fields w srv hs
    simp only [hs, Option.map_some', Option.some.injEq] at h
    rw [← h, hsrv]

/-- C7, witness of the amended claim: with ADDR unset the address is the default. -/
theorem main_addr_witness :
    ((main (worldOf [] none none none)).server.map fun srv => srv.Addr) = some ":8080" ∧
    ToLower "ADDR" = ToLower "addr" ∧
    ":8080" = (match os.LookupEnv (worldOf [] none none none).env "ADDR" with
      | some s => if s = "" then ":8080" else s
      | none => ":8080") :=
  ⟨by decide, main_addr (worldOf [] none none none) ":8080" (by decide)⟩

/-- C7, counterexample to the claim as stated: with ADDR=":9090" in the environment the
address main assigns to srv.Addr is ":9090", not the default. -/
theorem main_addr_configured :
    ((main (worldOf [("ADDR", ":9090")] none none none)).server.map fun srv => srv.Addr) =
      some ":9090" := by
  decide

/-- C9: the fatal log "http server exited: <err>" is emitted exactly when the
ListenAndServe of the server main built returns the error err; when it returns nil there
is no fatal log, main returns normally and the deferred closeSession runs last. -/
theorem main_exit (w : World) :
    (∀ e : String,
      ("http server exited: %s", [Arg.str e]) ∈ (main w).fatals ↔
        (main w).server.map w.listenAndServe = some (some e)) ∧
    ((main w).server.map w.listenAndServe = some none →
      (main w).fatals = [] ∧ (main w).exit = Exit.returned ∧
      (main w).trace.getLast? = some ProcEvent.closeSession) := by
  unfold main
  cases hm : w.mongoConnect (configure.GetString w.cast w.env "MONGO_URI") true with
  | some err => simp [hm, Run.fatals, Logger.Fatalf]
  | none =>
    cases hw : w.webNew (mainLogger w.cast w.env)
        { TemplateDir := configure.GetString w.cast w.env "TEMPLATE_DIR",
          StaticDir := configure.GetString w.cast w.env "STATIC_DIR" } with
    | error err => simp [hm, hw, Run.fatals, Logger.Fatalf, Logger.Debugf]
    | ok webApp =>
      simp only [hm, hw]
      split
      · rename_i err hl
        simp [hl, Run.fatals, Logger.Fatalf, Logger.Debugf, Logger.Infof]
        exact fun e => eq_comm
      · rename_i hl
        simp [hl, Run.fatals, Logger.Fatalf, Logger.Debugf, Logger.Infof]

/-- C9, witness: a run in which ListenAndServe returns an error, and one in which it
returns nil. -/
theorem main_exit_witness :
    ((main (worldOf [] none none (some "forced shutdown"))).server.map
        (worldOf [] none none (some "forced shutdown")).listenAndServe =
        some (some "forced shutdown") ∧
      ("http server exited: %s", [Arg.str "forced shutdown"]) ∈
        (main (worldOf [] none none (some "forced shutdown"))).fatals) ∧
    ((main (worldOf [] none none none)).server.map
        (worldOf [] none none none).listenAndServe = some none ∧
      (main (worldOf [] none none none)).fatals = [] ∧
      (main (worldOf [] none none none)).exit = Exit.returned ∧
      (main (worldOf [] none none none)).trace.getLast? = some ProcEvent.closeSession) :=
  ⟨⟨by decide,
      ((main_exit (worldOf [] none none (some "forced shutdown"))).1 "forced shutdown").2
        (by decide)⟩,
    ⟨by decide, (main_exit (worldOf [] none none none)).2 (by decide)⟩⟩

/-- C10: when mongo.Connect or web.New returns an error, main emits the fatal log for it
and ListenAndServe is never called; when startup succeeds, the info message logged right
before serving is "listening for requests on :8080..." whatever srv.Addr is. -/
theorem main_startup (w : World) :
    (∀ e : String,
      w.mongoConnect (configure.GetString w.cast w.env "MONGO_URI") true = some e →
      (main w).fatals = [("failed to connect to mongodb: %v", [Arg.str e])] ∧
      (main w).exit = Exit.exited 1 ∧
      ∀ (addr : String) (err : Option String),
        ProcEvent.listenAndServe addr err ∉ (main w).trace) ∧
    (∀ e : String,
      w.mongoConnect (configure.GetString w.cast w.env "MONGO_URI") true = none →
      w.webNew (mainLogger w.cast w.env)
        { TemplateDir := configure.GetString w.cast w.env "TEMPLATE_DIR",
          StaticDir := configure.GetString w.cast w.env "STATIC_DIR" } = Except.error e →
      (main w).fatals = [("failed to setup web handler: %v", [Arg.str e])] ∧
      (main w).exit = Exit.exited 1 ∧
      ∀ (addr : String) (err : Option String),
        ProcEvent.listenAndServe addr err ∉ (main w).trace) ∧
    (∀ a : String, ((main w).server.map fun srv => srv.Addr) = some a →
      (main w).infos = [("listening for requests on :8080...", [])] ∧
      ∃ (pre post : List ProcEvent) (err : Option String),
        (main w).trace =
          pre ++ ProcEvent.log
              ((mainLogger w.cast w.env).Infof "listening for requests on :8080..." []) ::
            ProcEvent.listenAndServe a err :: post) := by
  refine ⟨?_, ?_, ?_⟩
  · intro e hm
    unfold main
    simp [hm, Run.fatals, Logger.Fatalf]
  · intro e hm hw
    unfold main
    simp [hm, hw, Run.fatals, Logger.Fatalf, Logger.Debugf]
  · intro a ha
    unfold main at ha ⊢
    cases hm : w.mongoConnect (configure.GetString w.cast w.env "MONGO_URI") true with
    | some err => simp [hm] at ha
    | none =>
      cases hw : w.webNew (mainLogger w.cast w.env)
          { TemplateDir := configure.GetString w.cast w.env "TEMPLATE_DIR",
            StaticDir := configure.GetString w.cast w.env "STATIC_DIR" } with
      | error err => simp [hm, hw] at ha
      | ok webApp =>
        simp only [hm, hw] at ha ⊢
        split at ha
        · rename_i err hl
          simp only [hl]
          simp only [Option.map_some', Option.some.injEq] at ha
          refine ⟨by simp [Run.infos, Logger.Fatalf, Logger.Debugf, Logger.Infof], ?_⟩
          refine ⟨[ProcEvent.mongoConnect (configure.GetString w.cast w.env "MONGO_URI") true,
            ProcEvent.log ((mainLogger w.cast w.env).Debugf "setting up rest api service" []),
            ProcEvent.webNew
              { TemplateDir := configure.GetString w.cast w.env "TEMPLATE_DIR",
                StaticDir := configure.GetString w.cast w.env "STATIC_DIR" }],
            [ProcEvent.log ((mainLogger w.cast w.env).Fatalf "http server exited: %s"
              [Arg.str err])], some err, ?_⟩
          simp [← ha]
        · rename_i hl
          simp only [hl]
          simp only [Option.map_some', Option.some.injEq] at ha
          refine ⟨by simp [Run.infos, Logger.Fatalf, Logger.Debugf, Logger.Infof], ?_⟩
          refine ⟨[ProcEvent.mongoConnect (configure.GetString w.cast w.env "MONGO_URI") true,
            ProcEvent.log ((mainLogger w.cast w.env).Debugf "setting up rest api service" []),
            ProcEvent.webNew
              { TemplateDir := configure.GetString w.cast w.env "TEMPLATE_DIR",
                StaticDir := configure.GetString w.cast w.env "STATIC_DIR" }],
            [ProcEvent.closeSession], none, ?_⟩
          simp [← ha]

/-- C10, witness: a run in which mongo.Connect fails, one in which web.New fails, and one
that serves on ":9090" and still logs ":8080". -/
theorem main_startup_witness :
    ((main (worldOf [] (some "no reachable servers") none none)).fatals =
        [("failed to connect to mongodb: %v", [Arg.str "no reachable servers"])] ∧
      (main (worldOf [] (some "no reachable servers") none none)).exit = Exit.exited 1 ∧
      ∀ (addr : String) (err : Option String), ProcEvent.listenAndServe addr err ∉
        (main (worldOf [] (some "no reachable servers") none none)).trace) ∧
    ((main (worldOf [] none (some "no templates") none)).fatals =
        [("failed to setup web handler: %v", [Arg.str "no templates"])] ∧
      (main (worldOf [] none (some "no templates") none)).exit = Exit.exited 1 ∧
      ∀ (addr : String) (err : Option String), ProcEvent.listenAndServe addr err ∉
        (main (worldOf [] none (some "no templates") none)).trace) ∧
    ((main (worldOf [("ADDR", ":9090")] none none none)).infos =
        [("listening for requests on :8080...", [])] ∧
      ∃ (pre post : List ProcEvent) (err : Option String),
        (main (worldOf [("ADDR", ":9090")] none none none)).trace =
          pre ++ ProcEvent.log
              ((mainLogger (worldOf [("ADDR", ":9090")] none none none).cast
                (worldOf [("ADDR", ":9090")] none none none).env).Infof
                "listening for requests on :8080..." []) ::
            ProcEvent.listenAndServe ":9090" err :: post) :=
  ⟨(main_startup (worldOf [] (some "no reachable servers") none none)).1
      "no reachable servers" rfl,
    (main_startup (worldOf [] none (some "no templates") none)).2.1 "no templates" rfl rfl,
    (main_startup (worldOf [("ADDR", ":9090")] none none none)).2.2 ":9090" (by decide)⟩


/-- C2, witness: the admin secret reaches the REST handler once, a wrong secret gets 401. -/
theorem restHandler_auth_witness :
    (adminRequest.credentials = Credentials.basic "admin" "secret@123" ∧
      (restHandler (logger.New "debug" "text") listUsers adminRequest).events.count
        (Event.enter Layer.rest) = 1 ∧
      (restHandler (logger.New "debug" "text") listUsers adminRequest).result =
        (listUsers adminRequest).result ∧
      (restHandler (logger.New "debug" "text") listUsers adminRequest).events =
        Event.enter Layer.basicAuth ::
          (rest.New (logger.New "debug" "text") listUsers adminRequest).events) ∧
    ((restHandler (logger.New "debug" "text") listUsers guestRequest).events.count
        (Event.enter Layer.rest) = 0 ∧
      (restHandler (logger.New "debug" "text") listUsers guestRequest).result.status =
        some 401 ∧
      (restHandler (logger.New "debug" "text") listUsers guestRequest).events =
        [Event.enter Layer.basicAuth]) :=
  ⟨⟨rfl, (restHandler_auth (logger.New "debug" "text") listUsers adminRequest).1 "admin" rfl⟩,
    (restHandler_auth (logger.New "debug" "text") listUsers guestRequest).2
      (by intro name; simp [guestRequest])⟩

/-- C8, witness of the amended claim: "/api/users" goes to the REST handler as "/users",
"/" to the web handler, "/api//users" is redirected. -/
theorem router_dispatch_witness :
    (mux.cleanPath adminRequest.path = adminRequest.path ∧
      HasPrefix adminRequest.path "/api" = true ∧
      TrimPrefix adminRequest.path "/api" = "/users" ∧
      (router (restHandler (logger.New "debug" "text") listUsers)
          (App.handler Layer.web renderPage)).ServeHTTP adminRequest =
        { events := Event.enter Layer.router :: Event.enter Layer.stripPrefix ::
            (restHandler (logger.New "debug" "text") listUsers
              { adminRequest with path := TrimPrefix adminRequest.path "/api" }).events,
          result :=
            (restHandler (logger.New "debug" "text") listUsers
              { adminRequest with path := TrimPrefix adminRequest.path "/api" }).result,
          elapsed :=
            (restHandler (logger.New "debug" "text") listUsers
              { adminRequest with path := TrimPrefix adminRequest.path "/api" }).elapsed }) ∧
    (mux.cleanPath homeRequest.path = homeRequest.path ∧
      HasPrefix homeRequest.path "/api" = false ∧
      (router (restHandler (logger.New "debug" "text") listUsers)
          (App.handler Layer.web renderPage)).ServeHTTP homeRequest =
        { events := Event.enter Layer.router ::
            (App.handler Layer.web renderPage homeRequest).events,
          result := (App.handler Layer.web renderPage homeRequest).result,
          elapsed := (App.handler Layer.web renderPage homeRequest).elapsed }) ∧
    (mux.cleanPath doubledSlashRequest.path ≠ doubledSlashRequest.path ∧
      (router (restHandler (logger.New "debug" "text") listUsers)
          (App.handler Layer.web renderPage)).ServeHTTP doubledSlashRequest =
        { events := [Event.enter Layer.router],
          result := Result.response
            (mux.movedPermanently (mux.cleanPath doubledSlashRequest.path)),
          elapsed := 0 }) ∧
    ((router (restHandler (logger.New "debug" "text") listUsers)
        (App.handler Layer.web renderPage)).ServeHTTP adminRequest).entered =
      [Layer.router, Layer.stripPrefix, Layer.basicAuth, Layer.rest] ∧
    ((router (restHandler (logger.New "debug" "text") listUsers)
        (App.handler Layer.web renderPage)).ServeHTTP homeRequest).entered =
      [Layer.router, Layer.web] :=
  ⟨⟨by decide, by decide, by decide,
      (router_dispatch (logger.New "debug" "text") listUsers renderPage adminRequest).1
        (by decide) (by decide)⟩,
    ⟨by decide, by decide,
      (router_dispatch (logger.New "debug" "text") listUsers renderPage homeRequest).2.1
        (by decide) (by decide)⟩,
    ⟨by decide,
      (router_dispatch (logger.New "debug" "text") listUsers renderPage
        doubledSlashRequest).2.2.1 (by decide)⟩,
    (router_dispatch (logger.New "debug" "text") listUsers renderPage adminRequest).2.2.2.1
      (by decide),
    (router_dispatch (logger.New "debug" "text") listUsers renderPage homeRequest).2.2.2.2
      (by decide)⟩

/-- C8, counterexample to the claim as stated: the path "/api//users" has the prefix
"/api", yet with the admin secret the router answers 301 with location "/api/users" and
neither the authentication layer nor the REST handler is entered. -/
theorem router_dispatch_redirect :
    HasPrefix doubledSlashRequest.path "/api" = true ∧
    (router (restHandler (logger.New "debug" "text") listUsers)
        (App.handler Layer.web renderPage)).ServeHTTP doubledSlashRequest =
      { events := [Event.enter Layer.router],
        result := Result.response ⟨301, [("Location", "/api/users")], ""⟩,
        elapsed := 0 } := by
  decide

end Droplets
